import Mathlib

/-!
Verification of the s3-data-downloader sync-state reconciliation engine.

The repository ships a notebook driver (`src/notebooks/[Notebook].ipynb`) and a
YAML configuration (`src/config/default_config.yaml`); the core modules
(`s3_manager.py`, `file_utils.py`, `config_loader.py`) referenced by the driver
are not part of the source tree, so their behaviour is modelled from the
specification where a claim depends on them.  The notebook driver itself is
embedded directly from its cells.
-/

namespace S3Sync

/-- A remote object as returned by the listing: identity (bucket, key) plus the
metadata fingerprint attributes (size, last-modified). -/
structure RemoteObject where
  bucket : String
  key : String
  size : Nat
  lastModified : Nat
deriving DecidableEq, Repr

/-- A persisted sync record for a previously downloaded object, keyed by
(bucket, key): size and last-modified form the stored fingerprint. -/
structure SyncRecord where
  bucket : String
  key : String
  size : Nat
  lastModified : Nat
  localPath : String
  downloadedAt : Nat
deriving DecidableEq, Repr

/-- Filter rule set: include-extensions (case-insensitive suffixes, empty means
allow all) and exclude-filenames (exact basenames). -/
structure FilterRules where
  includeExtensions : List String
  excludeFilenames : List String
deriving DecidableEq, Repr

/-- The three sync modes of the configuration. -/
inductive SyncMode
  | full_refresh
  | incremental
  | mirror
deriving DecidableEq, Repr

/-- Plan entry action. -/
inductive PlanAction
  | FETCH
  | DELETE
deriving DecidableEq, Repr

/-- One entry of the download plan: the remote object, its local target path,
and the action to perform. -/
structure DownloadPlanEntry where
  obj : RemoteObject
  localTargetPath : String
  action : PlanAction
deriving DecidableEq, Repr

/-- Per-entry download outcome status. -/
inductive OutcomeStatus
  | SUCCEEDED
  | FAILED
  | SKIPPED
deriving DecidableEq, Repr

/-- The characters of a key after the last slash. -/
def basenameChars (cs : List Char) : List Char :=
  cs.foldl (fun acc c => if c = '/' then [] else acc ++ [c]) []

/-- Basename of a key: the segment after the last slash. -/
def basename (key : String) : String :=
  String.mk (basenameChars key.data)

/-- Lower-cased character list of a string, for case-insensitive comparison. -/
def lowerChars (s : String) : List Char :=
  s.data.map Char.toLower

/-- Case-insensitive suffix test on keys. -/
def suffixMatches (key ext : String) : Bool :=
  (lowerChars ext).isSuffixOf (lowerChars key)

/-- Modelled from the spec: the extension check of the Filter Evaluator in the
missing `s3_manager.py` — if include-extensions is non-empty the key suffix
must match one entry case-insensitively, otherwise every key passes. -/
def extMatches (rules : FilterRules) (key : String) : Bool :=
  rules.includeExtensions.isEmpty ||
    rules.includeExtensions.any (fun ext => suffixMatches key ext)

/-- Modelled from the spec: `isEligible` of the Filter Evaluator in the missing
`s3_manager.py` (`filter_obj_list`) — the extension check must pass and the
basename must not match any exclude-filenames entry; exclusion always wins. -/
def isEligible (rules : FilterRules) (o : RemoteObject) : Bool :=
  extMatches rules o.key && !(rules.excludeFilenames.contains (basename o.key))

/-- Look up the sync record for a (bucket, key) pair in a state snapshot. -/
def lookupRecord (st : List SyncRecord) (b k : String) : Option SyncRecord :=
  st.find? (fun r => r.bucket == b && r.key == k)

/-- Modelled from the spec: an object is up to date when a record exists for its
key and the stored (size, last-modified) fingerprint equals the object's. -/
def upToDate (st : List SyncRecord) (o : RemoteObject) : Bool :=
  match lookupRecord st o.bucket o.key with
  | none => false
  | some r => r.size == o.size && r.lastModified == o.lastModified

/-- Modelled from the spec: whether the Reconciler fetches an object —
full_refresh always fetches; incremental and mirror fetch exactly when the
object is not up to date in the prior state. -/
def needsFetch (mode : SyncMode) (st : List SyncRecord) (o : RemoteObject) : Bool :=
  match mode with
  | .full_refresh => true
  | .incremental => !(upToDate st o)
  | .mirror => !(upToDate st o)

/-- Local target path for a key under the configured download root. -/
def localTarget (root : String) (key : String) : String :=
  root ++ "/" ++ key

/-- FETCH plan entry for a remote object. -/
def fetchEntry (root : String) (o : RemoteObject) : DownloadPlanEntry :=
  { obj := o, localTargetPath := localTarget root o.key, action := .FETCH }

/-- DELETE plan entry targeting a prior record's local path. -/
def deleteEntry (r : SyncRecord) : DownloadPlanEntry :=
  { obj := { bucket := r.bucket, key := r.key, size := r.size,
             lastModified := r.lastModified },
    localTargetPath := r.localPath, action := .DELETE }

/-- Whether a (bucket, key) pair falls inside the configured bucket/prefix
scope, given as a list of (bucket, key-prefix) pairs. -/
def inScope (pairs : List (String × String)) (b k : String) : Bool :=
  pairs.any (fun p => p.1 == b && p.2.data.isPrefixOf k.data)

/-- Whether some object of the current remote listing has this (bucket, key). -/
def listedKey (listing : List RemoteObject) (b k : String) : Bool :=
  listing.any (fun o => o.bucket == b && o.key == k)

/-- Modelled from the spec: mirror-mode deletion in the missing Reconciler —
prior records inside the configured scope whose remote object no longer exists
in the current listing become DELETE entries; an object that is still listed
but filtered out is invisible to this run, not missing, so it is never
considered for deletion. -/
def mirrorDeletes (pairs : List (String × String)) (st : List SyncRecord)
    (listing : List RemoteObject) : List DownloadPlanEntry :=
  (st.filter (fun r => inScope pairs r.bucket r.key &&
    !(listedKey listing r.bucket r.key))).map deleteEntry

/-- Ascending (bucket, key) comparison on plan entries. -/
def entryLE (a b : DownloadPlanEntry) : Bool :=
  decide (a.obj.bucket < b.obj.bucket) ||
    (a.obj.bucket == b.obj.bucket && decide (a.obj.key ≤ b.obj.key))

/-- `entryLE` as a relation, used for sorting the plan. -/
def entryLEP (a b : DownloadPlanEntry) : Prop :=
  entryLE a b = true

instance : DecidableRel entryLEP := fun a b =>
  inferInstanceAs (Decidable (entryLE a b = true))

/-- Modelled from the spec: the Reconciler `plan` of the missing
`s3_manager.py` (`filter_obj_list`) — filter the listing, emit FETCH entries
per mode, append mirror DELETE entries, and order the result ascending by
(bucket, key). -/
def plan (pairs : List (String × String)) (rules : FilterRules) (mode : SyncMode)
    (st : List SyncRecord) (root : String) (listing : List RemoteObject) :
    List DownloadPlanEntry :=
  let eligible := listing.filter (isEligible rules)
  let fetches := (eligible.filter (needsFetch mode st)).map (fetchEntry root)
  let deletes := if mode = .mirror then mirrorDeletes pairs st listing else []
  (fetches ++ deletes).insertionSort entryLEP

/-- The sync record created when a FETCH entry succeeds and is committed. -/
def recordOfFetch (now : Nat) (e : DownloadPlanEntry) : SyncRecord :=
  { bucket := e.obj.bucket, key := e.obj.key, size := e.obj.size,
    lastModified := e.obj.lastModified, localPath := e.localTargetPath,
    downloadedAt := now }

/-- Modelled from the spec: the prior records carried over into the new state
because their object was SKIPPED as already up to date (eligible listing
objects for which no fetch is needed keep their stored record). -/
def carriedRecords (rules : FilterRules) (mode : SyncMode) (st : List SyncRecord)
    (listing : List RemoteObject) : List SyncRecord :=
  ((listing.filter (isEligible rules)).filter
    (fun o => !(needsFetch mode st o))).filterMap
    (fun o => lookupRecord st o.bucket o.key)

/-- The (bucket, key) pairs removed via DELETE entries of a plan. -/
def deleteKeys (p : List DownloadPlanEntry) : List (String × String) :=
  (p.filter (fun e => e.action == PlanAction.DELETE)).map
    (fun e => (e.obj.bucket, e.obj.key))

/-- Modelled from the spec: the state committed by the Pipeline Coordinator —
carried-over SKIPPED records plus records of SUCCEEDED FETCH outcomes, minus
any records removed via DELETE; FAILED outcomes contribute nothing. -/
def commitState (pairs : List (String × String)) (rules : FilterRules)
    (mode : SyncMode) (st : List SyncRecord) (root : String)
    (listing : List RemoteObject) (outcome : DownloadPlanEntry → OutcomeStatus)
    (now : Nat) : List SyncRecord :=
  let p := plan pairs rules mode st root listing
  let succeeded := (p.filter (fun e =>
    e.action == PlanAction.FETCH && outcome e == OutcomeStatus.SUCCEEDED)).map
    (recordOfFetch now)
  (carriedRecords rules mode st listing ++ succeeded).filter
    (fun r => !((deleteKeys p).contains (r.bucket, r.key)))

/-- The phases of the Pipeline Coordinator's state machine. -/
inductive Phase
  | INIT
  | LISTING
  | RECONCILING
  | DOWNLOADING
  | COMMITTING
  | DONE
  | FAILED
deriving DecidableEq, Repr

/-- Result of one pipeline run: the phase trace in execution order, the plan
that was computed (if any), and the committed state (if any). -/
structure RunResult where
  trace : List Phase
  planOut : Option (List DownloadPlanEntry)
  committed : Option (List SyncRecord)
deriving DecidableEq, Repr

/-- Modelled from the spec: the Pipeline Coordinator — if the remote
connection cannot be established the run fails before any plan is made;
otherwise it lists, reconciles once, downloads, and finally commits the state
computed from the plan's outcomes. -/
def runPipeline (connected : Bool) (pairs : List (String × String))
    (rules : FilterRules) (mode : SyncMode) (st : List SyncRecord)
    (root : String) (listing : List RemoteObject)
    (outcome : DownloadPlanEntry → OutcomeStatus) (now : Nat) : RunResult :=
  if connected then
    { trace := [.INIT, .LISTING, .RECONCILING, .DOWNLOADING, .COMMITTING, .DONE],
      planOut := some (plan pairs rules mode st root listing),
      committed := some (commitState pairs rules mode st root listing outcome now) }
  else
    { trace := [.INIT, .FAILED], planOut := none, committed := none }

/-- The interruption points of a sync-state commit: before any write, midway
through writing the temporary file (an arbitrary fragment written so far),
after the temporary write completes, and after the rename into place. -/
inductive CommitPoint
  | beforeWrite
  | midWrite (frag : List SyncRecord)
  | writtenTemp
  | renamed
deriving DecidableEq, Repr

/-- Contents of the state file location and of the temporary location. -/
structure FsState where
  finalFile : Option (List SyncRecord)
  tempFile : Option (List SyncRecord)
deriving DecidableEq, Repr

/-- Modelled from the spec: `save_sync_state` of the missing `file_utils.py`
writes the full new record set to a temporary location and then moves it into
place; this gives the filesystem contents at every interruption point of a
commit that starts with the state file holding `old`. -/
def save_sync_state (old : Option (List SyncRecord)) (news : List SyncRecord) :
    CommitPoint → FsState
  | .beforeWrite => { finalFile := old, tempFile := none }
  | .midWrite frag => { finalFile := old, tempFile := some frag }
  | .writtenTemp => { finalFile := old, tempFile := some news }
  | .renamed => { finalFile := some news, tempFile := none }

/-- Raw configuration as parsed from the YAML file, before validation. -/
structure RawConfig where
  bucketMap : List (String × List String)
  locDownload : Option String
  mode : Option String
  threads : Nat
deriving DecidableEq, Repr

/-- Validated configuration consumed by the engine. -/
structure Config where
  bucketMap : List (String × List String)
  locDownload : String
  mode : SyncMode
  threads : Nat
deriving DecidableEq, Repr

/-- Parse a sync-mode string into the enum. -/
def parseMode (m : String) : Option SyncMode :=
  if m == "full_refresh" then some .full_refresh
  else if m == "incremental" then some .incremental
  else if m == "mirror" then some .mirror
  else none

/-- Modelled from the spec: configuration validation in the missing
`config_loader.py` — required fields present, mode one of the three, thread
count at least 1. -/
def validateConfig (raw : RawConfig) : Option Config :=
  match raw.locDownload, raw.mode with
  | some loc, some m =>
    match parseMode m with
    | some md =>
      if raw.threads ≥ 1 && !raw.bucketMap.isEmpty then
        some { bucketMap := raw.bucketMap, locDownload := loc,
               mode := md, threads := raw.threads }
      else none
    | none => none
  | _, _ => none

/-- Shape of the Download Executor invocation made by the driver: which names
are passed for the client and the object list, and the worker-count argument
if one is supplied. -/
structure ExecuteDownloadCall where
  clientArg : String
  objListArg : String
  workerCountArg : Option Nat
deriving DecidableEq, Repr

/-- Embedded from the driver cell
`S3_Downloader.execute_download(client_obj, s3_obj_list)`: the executor is
invoked with the client handle and the filtered object list only — no
worker-count argument appears, whatever the configuration holds. -/
def driverExecuteDownloadCall (_cfg : Config) : ExecuteDownloadCall :=
  { clientArg := "client_obj", objListArg := "s3_obj_list",
    workerCountArg := none }

/-- A notebook cell, abstracted to the module-level names it assigns and the
module-level names it reads (in evaluation order, earliest first). -/
structure Cell where
  defines : List String
  uses : List String
deriving DecidableEq, Repr

/-- First name a cell reads that is not bound in the environment; `none` when
every read name is bound. -/
def firstMissing (env : List String) (c : Cell) : Option String :=
  c.uses.find? (fun n => !(env.contains n))

/-- Run cells in order, threading the bound-name environment; returns the
first unbound name hit (the Python `NameError`), or `none` if all cells run. -/
def runCellsFrom (env : List String) : List Cell → Option String
  | [] => none
  | c :: rest =>
    match firstMissing env c with
    | some n => some n
    | none => runCellsFrom (env ++ c.defines) rest

/-- Embedded from `src/notebooks/[Notebook].ipynb`: the code cells in order,
each with the names it assigns and the names it reads.  The final cell is the
commit step `file_utils.save_sync_state(df = s3_obj_list, output_dir =
download_path)`; Python resolves the callee `file_utils` first, then the
arguments. -/
def notebookCells : List Cell :=
  [ { defines := ["boto3", "os", "load_dotenv", "NoCredentialsError",
                  "ClientError", "sys", "sys_path", "S3_Downloader",
                  "read_yaml_file", "pd"], uses := [] },
    { defines := ["config"], uses := ["load_dotenv", "read_yaml_file"] },
    { defines := ["client_obj"], uses := ["S3_Downloader"] },
    { defines := ["bucket_prefix_pair"],
      uses := ["S3_Downloader", "client_obj", "config"] },
    { defines := [], uses := [] },
    { defines := ["s3_obj_list"],
      uses := ["os", "config", "S3_Downloader", "client_obj",
               "bucket_prefix_pair"] },
    { defines := [], uses := [] },
    { defines := ["s3_obj_list"],
      uses := ["S3_Downloader", "s3_obj_list", "config"] },
    { defines := [], uses := ["S3_Downloader", "client_obj", "s3_obj_list"] },
    { defines := [], uses := ["file_utils", "s3_obj_list", "download_path"] } ]

/-- All names the notebook driver ever assigns, across all cells. -/
def notebookDefinedNames : List String :=
  (notebookCells.map Cell.defines).flatten

/-- The (bucket, key) identity of a plan entry. -/
def entryKey (e : DownloadPlanEntry) : String × String :=
  (e.obj.bucket, e.obj.key)

/-- The (bucket, key) identity of a remote object. -/
def objKey (o : RemoteObject) : String × String :=
  (o.bucket, o.key)

/-- The (bucket, key) identity of a sync record. -/
def recKey (r : SyncRecord) : String × String :=
  (r.bucket, r.key)

/-- The mirror-mode deletion-set formula as the testable property words it:
keys of prior-state records within scope minus the keys of the current
filter-eligible listing.  Stated from the spec sentence for comparison with
the reconciler's actual deletion set. -/
def claimedDeletionSet (pairs : List (String × String)) (st : List SyncRecord)
    (rules : FilterRules) (listing : List RemoteObject) : List (String × String) :=
  ((st.filter (fun r => inScope pairs r.bucket r.key)).map recKey).filter
    (fun bk => !((listing.filter (isEligible rules)).any
      (fun o => o.bucket == bk.1 && o.key == bk.2)))

/-! ### Helper lemmas -/

theorem entryLE_trans (a b c : DownloadPlanEntry) (h1 : entryLE a b = true)
    (h2 : entryLE b c = true) : entryLE a c = true := by
  simp only [entryLE, Bool.or_eq_true, Bool.and_eq_true, decide_eq_true_eq,
    beq_iff_eq] at h1 h2 ⊢
  rcases h1 with h1 | ⟨h1b, h1k⟩ <;> rcases h2 with h2 | ⟨h2b, h2k⟩
  · exact Or.inl (lt_trans h1 h2)
  · exact Or.inl (h2b ▸ h1)
  · exact Or.inl (by rw [h1b]; exact h2)
  · exact Or.inr ⟨h1b.trans h2b, le_trans h1k h2k⟩

theorem entryLE_total (a b : DownloadPlanEntry) :
    entryLE a b = true ∨ entryLE b a = true := by
  simp only [entryLE, Bool.or_eq_true, Bool.and_eq_true, decide_eq_true_eq,
    beq_iff_eq]
  rcases lt_trichotomy a.obj.bucket b.obj.bucket with h | h | h
  · exact Or.inl (Or.inl h)
  · rcases le_total a.obj.key b.obj.key with hk | hk
    · exact Or.inl (Or.inr ⟨h, hk⟩)
    · exact Or.inr (Or.inr ⟨h.symm, hk⟩)
  · exact Or.inr (Or.inl h)

theorem entryLE_key_antisymm (a b : DownloadPlanEntry) (h1 : entryLE a b = true)
    (h2 : entryLE b a = true) : entryKey a = entryKey b := by
  simp only [entryLE, Bool.or_eq_true, Bool.and_eq_true, decide_eq_true_eq,
    beq_iff_eq] at h1 h2
  rcases h1 with h1 | ⟨h1b, h1k⟩ <;> rcases h2 with h2 | ⟨h2b, h2k⟩
  · exact absurd (lt_trans h1 h2) (lt_irrefl _)
  · exact absurd h1 (by rw [h2b]; exact lt_irrefl _)
  · exact absurd h2 (by rw [h1b]; exact lt_irrefl _)
  · exact Prod.ext h1b (le_antisymm h1k h2k)

instance : IsTrans DownloadPlanEntry entryLEP :=
  ⟨fun a b c => entryLE_trans a b c⟩

instance : IsTotal DownloadPlanEntry entryLEP :=
  ⟨fun a b => entryLE_total a b⟩

theorem mem_plan_iff (pairs : List (String × String)) (rules : FilterRules)
    (mode : SyncMode) (st : List SyncRecord) (root : String)
    (listing : List RemoteObject) (e : DownloadPlanEntry) :
    e ∈ plan pairs rules mode st root listing ↔
      (∃ o, o ∈ listing ∧ isEligible rules o = true ∧
        needsFetch mode st o = true ∧ e = fetchEntry root o) ∨
      (mode = SyncMode.mirror ∧ ∃ r, r ∈ st ∧
        inScope pairs r.bucket r.key = true ∧
        listedKey listing r.bucket r.key = false ∧ e = deleteEntry r) := by
  unfold plan mirrorDeletes
  cases mode <;>
    simp [List.mem_insertionSort, List.mem_append, List.mem_filter,
      eq_comm (b := e), and_assoc] <;>
    first
      | exact exists_congr fun o => by tauto
      | exact or_congr (exists_congr fun o => by tauto) Iff.rfl

theorem mem_carried_iff (rules : FilterRules) (mode : SyncMode)
    (st : List SyncRecord) (listing : List RemoteObject) (r : SyncRecord) :
    r ∈ carriedRecords rules mode st listing ↔
      ∃ o, o ∈ listing ∧ isEligible rules o = true ∧
        needsFetch mode st o = false ∧
        lookupRecord st o.bucket o.key = some r := by
  unfold carriedRecords
  simp [List.mem_filterMap, List.mem_filter, and_assoc]
  exact exists_congr fun o => by tauto

theorem upToDate_false_iff (st : List SyncRecord) (o : RemoteObject) :
    upToDate st o = false ↔
      lookupRecord st o.bucket o.key = none ∨
      ∃ r, lookupRecord st o.bucket o.key = some r ∧
        (r.size ≠ o.size ∨ r.lastModified ≠ o.lastModified) := by
  unfold upToDate
  cases h : lookupRecord st o.bucket o.key with
  | none => simp
  | some r =>
    simp only [Option.some.injEq]
    constructor
    · intro hb
      refine Or.inr ⟨r, rfl, ?_⟩
      rcases Bool.and_eq_false_iff.mp hb with hb | hb
      · exact Or.inl (by simpa using hb)
      · exact Or.inr (by simpa using hb)
    · rintro (hnone | ⟨r', hr', h'⟩)
      · exact Option.noConfusion hnone
      · subst hr'
        rcases h' with h' | h' <;> simp [h']

theorem lookupRecord_keys (st : List SyncRecord) (b k : String) (r : SyncRecord)
    (h : lookupRecord st b k = some r) : r.bucket = b ∧ r.key = k := by
  have := List.find?_some h
  simpa using this

theorem lookupRecord_mem (st : List SyncRecord) (b k : String) (r : SyncRecord)
    (h : lookupRecord st b k = some r) : r ∈ st :=
  List.mem_of_find?_eq_some h

theorem fetchEntry_inj (root : String) (o o' : RemoteObject)
    (h : fetchEntry root o = fetchEntry root o') : o = o' :=
  congrArg DownloadPlanEntry.obj h

theorem fetchEntry_action (root : String) (o : RemoteObject) :
    (fetchEntry root o).action = PlanAction.FETCH := rfl

theorem deleteEntry_action (r : SyncRecord) :
    (deleteEntry r).action = PlanAction.DELETE := rfl

theorem recordOfFetch_inj (now : Nat) (e e' : DownloadPlanEntry)
    (h1 : e.action = PlanAction.FETCH) (h2 : e'.action = PlanAction.FETCH)
    (h : recordOfFetch now e = recordOfFetch now e') : e = e' := by
  obtain ⟨⟨b, k, s, lm⟩, lp, a⟩ := e
  obtain ⟨⟨b', k', s', lm'⟩, lp', a'⟩ := e'
  simp only [recordOfFetch, SyncRecord.mk.injEq] at h
  simp only at h1 h2
  obtain ⟨hb, hk, hs, hlm, hlp, -⟩ := h
  subst hb hk hs hlm hlp h1 h2
  rfl

theorem listedKey_perm (listing listing' : List RemoteObject)
    (h : listing.Perm listing') (b k : String) :
    listedKey listing b k = listedKey listing' b k := by
  unfold listedKey
  rw [Bool.eq_iff_iff]
  simp only [List.any_eq_true]
  exact ⟨fun ⟨o, ho, hp⟩ => ⟨o, h.subset ho, hp⟩,
    fun ⟨o, ho, hp⟩ => ⟨o, h.symm.subset ho, hp⟩⟩

theorem sorted_perm_nodupKey_eq :
    ∀ {l1 l2 : List DownloadPlanEntry}, l1.Perm l2 →
      l1.Sorted entryLEP → l2.Sorted entryLEP →
      (l1.map entryKey).Nodup → l1 = l2
  | [], l2, p, _, _, _ => p.nil_eq
  | a :: t1, [], p, _, _, _ => absurd p.symm (by simp)
  | a :: t1, b :: t2, p, s1, s2, nd => by
    have hab : a = b := by
      by_contra hne
      have hal2 : a ∈ b :: t2 := p.subset (List.mem_cons_self a t1)
      have hbl1 : b ∈ a :: t1 := p.symm.subset (List.mem_cons_self b t2)
      have hat2 : a ∈ t2 := by
        rcases List.mem_cons.mp hal2 with h | h
        · exact absurd h hne
        · exact h
      have hbt1 : b ∈ t1 := by
        rcases List.mem_cons.mp hbl1 with h | h
        · exact absurd h.symm hne
        · exact h
      have h1 : entryLEP a b := (List.pairwise_cons.mp s1).1 b hbt1
      have h2 : entryLEP b a := (List.pairwise_cons.mp s2).1 a hat2
      have hk : entryKey a = entryKey b := entryLE_key_antisymm a b h1 h2
      have hnd : entryKey a ∉ (t1.map entryKey) :=
        (List.nodup_cons.mp (by simpa using nd)).1
      exact hnd (hk ▸ List.mem_map_of_mem entryKey hbt1)
    subst hab
    have pt : t1.Perm t2 := p.cons_inv
    have ht : t1 = t2 :=
      sorted_perm_nodupKey_eq pt (List.pairwise_cons.mp s1).2
        (List.pairwise_cons.mp s2).2 (List.nodup_cons.mp (by simpa using nd)).2
    rw [ht]

/-! ### Claim theorems -/

/-- C2: for every old state and every new record set, at every interruption
point of a commit the persisted state file holds either the complete old
content or the complete new record set — never a fragment — and after the
rename it holds exactly the new set. -/
theorem save_sync_state_atomic (old : Option (List SyncRecord))
    (news : List SyncRecord) (pt : CommitPoint) :
    ((save_sync_state old news pt).finalFile = old ∨
      (save_sync_state old news pt).finalFile = some news) ∧
    (save_sync_state old news CommitPoint.renamed).finalFile = some news := by
  cases pt <;> simp [save_sync_state]

/-- C5: if an object's basename exactly matches an exclude-filenames entry
then `isEligible` returns false, whatever the include-extensions rules say:
exclusion always wins over inclusion. -/
theorem isEligible_exclusion_wins (rules : FilterRules) (o : RemoteObject)
    (h : basename o.key ∈ rules.excludeFilenames) :
    isEligible rules o = false := by
  have hc : rules.excludeFilenames.contains (basename o.key) = true := by
    simpa [List.contains] using (List.elem_iff).mpr h
  simp [isEligible, hc]
  intro _
  exact h

/-- Witness for C5 at a concrete input whose extension does match the
include-extensions rules, showing exclusion still wins. -/
theorem isEligible_exclusion_wins_witness :
    basename "p/skip_this_file.csv" ∈ ["skip_this_file.csv"] ∧
    isEligible
      { includeExtensions := [".csv"], excludeFilenames := ["skip_this_file.csv"] }
      { bucket := "b", key := "p/skip_this_file.csv", size := 1, lastModified := 2 }
      = false :=
  ⟨by decide, isEligible_exclusion_wins _ _ (by decide)⟩

/-- C10: the notebook driver runs every cell before the commit step without a
missing name, and the commit step itself raises `NameError` on `file_utils`:
neither `file_utils` nor `download_path` is ever bound by any cell, so the
sync-state artifact is never written by the commit step as coded. -/
theorem notebook_commit_raises_name_error :
    runCellsFrom [] (notebookCells.take 9) = none ∧
    runCellsFrom [] notebookCells = some "file_utils" ∧
    "file_utils" ∉ notebookDefinedNames ∧
    "download_path" ∉ notebookDefinedNames := by decide

/-- C9: the driver invokes the Download Executor with the client handle and
the object list only — the invocation is the same function of every validated
configuration, so the worker count is not taken from `sync.threads`; in
particular at the repository's own configuration with threads = 8 no
worker-count argument is passed, although validation would accept it. -/
theorem driver_ignores_configured_threads :
    (∀ c1 c2 : Config, driverExecuteDownloadCall c1 = driverExecuteDownloadCall c2) ∧
    validateConfig
      { bucketMap := [("prod-completed", ["2025-05-30/", "2025-03-01/"])],
        locDownload := some "../downloads", mode := some "incremental",
        threads := 8 } =
      some { bucketMap := [("prod-completed", ["2025-05-30/", "2025-03-01/"])],
             locDownload := "../downloads", mode := SyncMode.incremental,
             threads := 8 } ∧
    (driverExecuteDownloadCall
      { bucketMap := [("prod-completed", ["2025-05-30/", "2025-03-01/"])],
        locDownload := "../downloads", mode := SyncMode.incremental,
        threads := 8 }).workerCountArg = none :=
  ⟨fun _ _ => rfl, by decide, rfl⟩

/-- C8: every run passes through the phases in the fixed order — when the
connection is established the trace is exactly INIT, LISTING, RECONCILING,
DOWNLOADING, COMMITTING, DONE, the plan recorded is the one computed by the
Reconciler before any download, and the committed state is the commit of that
plan's outcomes; when the connection cannot be established the run aborts as
INIT, FAILED before any plan is made. -/
theorem runPipeline_phase_order (connected : Bool)
    (pairs : List (String × String)) (rules : FilterRules) (mode : SyncMode)
    (st : List SyncRecord) (root : String) (listing : List RemoteObject)
    (outcome : DownloadPlanEntry → OutcomeStatus) (now : Nat) :
    (connected = false →
      (runPipeline connected pairs rules mode st root listing outcome now).trace =
        [Phase.INIT, Phase.FAILED] ∧
      (runPipeline connected pairs rules mode st root listing outcome now).planOut = none ∧
      (runPipeline connected pairs rules mode st root listing outcome now).committed = none) ∧
    (connected = true →
      (runPipeline connected pairs rules mode st root listing outcome now).trace =
        [Phase.INIT, Phase.LISTING, Phase.RECONCILING, Phase.DOWNLOADING,
         Phase.COMMITTING, Phase.DONE] ∧
      (runPipeline connected pairs rules mode st root listing outcome now).planOut =
        some (plan pairs rules mode st root listing) ∧
      (runPipeline connected pairs rules mode st root listing outcome now).committed =
        some (commitState pairs rules mode st root listing outcome now)) := by
  cases connected <;> simp [runPipeline]

/-- Witness for C8 at concrete inputs: a disconnected run yields no plan, and
a connected run realises the full phase sequence. -/
theorem runPipeline_phase_order_witness :
    (runPipeline false [] { includeExtensions := [], excludeFilenames := [] }
      SyncMode.incremental [] "r" [] (fun _ => OutcomeStatus.SUCCEEDED) 0).planOut = none ∧
    (runPipeline true [] { includeExtensions := [], excludeFilenames := [] }
      SyncMode.incremental [] "r" [] (fun _ => OutcomeStatus.SUCCEEDED) 0).trace =
      [Phase.INIT, Phase.LISTING, Phase.RECONCILING, Phase.DOWNLOADING,
       Phase.COMMITTING, Phase.DONE] :=
  ⟨((runPipeline_phase_order false [] { includeExtensions := [], excludeFilenames := [] }
      SyncMode.incremental [] "r" [] (fun _ => OutcomeStatus.SUCCEEDED) 0).1 rfl).2.1,
   ((runPipeline_phase_order true [] { includeExtensions := [], excludeFilenames := [] }
      SyncMode.incremental [] "r" [] (fun _ => OutcomeStatus.SUCCEEDED) 0).2 rfl).1⟩

/-- C4: in full_refresh mode the plan is independent of the prior sync state,
and its entries are exactly the filter-eligible objects of the listing as
FETCH entries. -/
theorem full_refresh_plan_ignores_state (pairs : List (String × String))
    (rules : FilterRules) (st st' : List SyncRecord) (root : String)
    (listing : List RemoteObject) :
    plan pairs rules SyncMode.full_refresh st root listing =
      plan pairs rules SyncMode.full_refresh st' root listing ∧
    (∀ e, e ∈ plan pairs rules SyncMode.full_refresh st root listing ↔
      ∃ o, o ∈ listing ∧ isEligible rules o = true ∧ e = fetchEntry root o) := by
  constructor
  · simp [plan, needsFetch]
  · intro e
    rw [mem_plan_iff]
    simp [needsFetch]

/-- C3: in incremental mode a FETCH entry is produced exactly for the eligible
objects with no record for their key or with a stored (size, last-modified)
fingerprint differing from the object's current one; in particular an object
whose fingerprint matches its record is never fetched. -/
theorem incremental_never_refetches (pairs : List (String × String))
    (rules : FilterRules) (st : List SyncRecord) (root : String)
    (listing : List RemoteObject) :
    (∀ e, e ∈ plan pairs rules SyncMode.incremental st root listing ↔
      ∃ o, o ∈ listing ∧ isEligible rules o = true ∧
        (lookupRecord st o.bucket o.key = none ∨
         ∃ r, lookupRecord st o.bucket o.key = some r ∧
           (r.size ≠ o.size ∨ r.lastModified ≠ o.lastModified)) ∧
        e = fetchEntry root o) ∧
    (∀ o, upToDate st o = true →
      fetchEntry root o ∉ plan pairs rules SyncMode.incremental st root listing) := by
  have hmem : ∀ e, e ∈ plan pairs rules SyncMode.incremental st root listing ↔
      ∃ o, o ∈ listing ∧ isEligible rules o = true ∧ upToDate st o = false ∧
        e = fetchEntry root o := by
    intro e
    rw [mem_plan_iff]
    simp [needsFetch]
  constructor
  · intro e
    rw [hmem e]
    exact exists_congr fun o => by rw [upToDate_false_iff]
  · intro o h hin
    obtain ⟨o', ho', _, hfalse, heq⟩ := (hmem _).mp hin
    have ho : o' = o := fetchEntry_inj root o' o heq.symm
    subst ho
    rw [h] at hfalse
    cases hfalse

/-- Witness for C3 at a concrete input: an object whose (size, last-modified)
matches its stored record is up to date and yields no FETCH entry. -/
theorem incremental_never_refetches_witness :
    upToDate
      [{ bucket := "b", key := "k.csv", size := 10, lastModified := 5,
         localPath := "r/k.csv", downloadedAt := 0 }]
      { bucket := "b", key := "k.csv", size := 10, lastModified := 5 } = true ∧
    fetchEntry "r" { bucket := "b", key := "k.csv", size := 10, lastModified := 5 } ∉
      plan [("b", "")] { includeExtensions := [".csv"], excludeFilenames := [] }
        SyncMode.incremental
        [{ bucket := "b", key := "k.csv", size := 10, lastModified := 5,
           localPath := "r/k.csv", downloadedAt := 0 }]
        "r"
        [{ bucket := "b", key := "k.csv", size := 10, lastModified := 5 }] :=
  ⟨by decide,
   (incremental_never_refetches [("b", "")]
      { includeExtensions := [".csv"], excludeFilenames := [] }
      [{ bucket := "b", key := "k.csv", size := 10, lastModified := 5,
         localPath := "r/k.csv", downloadedAt := 0 }]
      "r"
      [{ bucket := "b", key := "k.csv", size := 10, lastModified := 5 }]).2
    { bucket := "b", key := "k.csv", size := 10, lastModified := 5 } (by decide)⟩

/-- C6 counterexample: prior state holds a record for key `c.txt` within
scope; the remote object for that key is still listed but filtered out by the
include-extensions rules, so it is absent from the filter-eligible listing.
The claimed set-difference formula (prior keys in scope minus eligible-listing
keys) then contains the key, yet the mirror plan produces no DELETE entry:
the claimed equality fails at this input. -/
theorem mirror_deletion_formula_counterexample :
    listedKey [{ bucket := "b", key := "c.txt", size := 1, lastModified := 1 }]
      "b" "c.txt" = true ∧
    claimedDeletionSet [("b", "")]
      [{ bucket := "b", key := "c.txt", size := 1, lastModified := 1,
         localPath := "r/c.txt", downloadedAt := 0 }]
      { includeExtensions := [".csv"], excludeFilenames := [] }
      [{ bucket := "b", key := "c.txt", size := 1, lastModified := 1 }] =
      [("b", "c.txt")] ∧
    deleteKeys (plan [("b", "")]
      { includeExtensions := [".csv"], excludeFilenames := [] }
      SyncMode.mirror
      [{ bucket := "b", key := "c.txt", size := 1, lastModified := 1,
         localPath := "r/c.txt", downloadedAt := 0 }]
      "r"
      [{ bucket := "b", key := "c.txt", size := 1, lastModified := 1 }]) = [] := by
  decide

/-- C6 (amended): in mirror mode the DELETE entries are exactly the in-scope
prior-state records whose key is absent from the full current remote listing;
consequently a key still present remotely — whether filter-eligible or
filtered out — never yields a DELETE entry. -/
theorem mirror_delete_characterization (pairs : List (String × String))
    (rules : FilterRules) (st : List SyncRecord) (root : String)
    (listing : List RemoteObject) :
    (∀ e, (e ∈ plan pairs rules SyncMode.mirror st root listing ∧
        e.action = PlanAction.DELETE) ↔
      ∃ r, r ∈ st ∧ inScope pairs r.bucket r.key = true ∧
        listedKey listing r.bucket r.key = false ∧ e = deleteEntry r) ∧
    (∀ e, e ∈ plan pairs rules SyncMode.mirror st root listing →
      e.action = PlanAction.DELETE →
      listedKey listing e.obj.bucket e.obj.key = false) := by
  have h1 : ∀ e, (e ∈ plan pairs rules SyncMode.mirror st root listing ∧
      e.action = PlanAction.DELETE) ↔
      ∃ r, r ∈ st ∧ inScope pairs r.bucket r.key = true ∧
        listedKey listing r.bucket r.key = false ∧ e = deleteEntry r := by
    intro e
    constructor
    · rintro ⟨hmem, hact⟩
      rcases (mem_plan_iff pairs rules SyncMode.mirror st root listing e).mp hmem
        with ⟨o, _, _, _, rfl⟩ | ⟨_, r, hr, hs, hl, rfl⟩
      · exact absurd hact (by simp [fetchEntry])
      · exact ⟨r, hr, hs, hl, rfl⟩
    · rintro ⟨r, hr, hs, hl, rfl⟩
      exact ⟨(mem_plan_iff pairs rules SyncMode.mirror st root listing _).mpr
        (Or.inr ⟨rfl, r, hr, hs, hl, rfl⟩), rfl⟩
  refine ⟨h1, fun e hmem hact => ?_⟩
  obtain ⟨r, _, _, hl, rfl⟩ := (h1 e).mp ⟨hmem, hact⟩
  simpa [deleteEntry] using hl

/-- Witness for C6 (amended) at a concrete input: the plan's one DELETE entry
targets a prior record whose key is no longer listed remotely. -/
theorem mirror_delete_characterization_witness :
    (deleteEntry { bucket := "b", key := "c.csv", size := 1, lastModified := 1,
                   localPath := "r/c.csv", downloadedAt := 0 } ∈
      plan [("b", "")] { includeExtensions := [".csv"], excludeFilenames := [] }
        SyncMode.mirror
        [{ bucket := "b", key := "c.csv", size := 1, lastModified := 1,
           localPath := "r/c.csv", downloadedAt := 0 }] "r" [] ∧
      (deleteEntry { bucket := "b", key := "c.csv", size := 1, lastModified := 1,
                     localPath := "r/c.csv", downloadedAt := 0 }).action =
        PlanAction.DELETE) ∧
    listedKey [] "b" "c.csv" = false :=
  ⟨⟨by decide, rfl⟩,
   (mirror_delete_characterization [("b", "")]
      { includeExtensions := [".csv"], excludeFilenames := [] }
      [{ bucket := "b", key := "c.csv", size := 1, lastModified := 1,
         localPath := "r/c.csv", downloadedAt := 0 }] "r" []).2
     (deleteEntry { bucket := "b", key := "c.csv", size := 1, lastModified := 1,
                    localPath := "r/c.csv", downloadedAt := 0 }) (by decide) rfl⟩

/-- C7: the plan is sorted ascending by (bucket, key); consequently two runs
over the same listing, rules, mode and prior state — with per-key-unique
listing and prior state, as the data model stipulates — produce the identical
entry sequence regardless of the order in which the objects were supplied. -/
theorem plan_sorted_and_deterministic (pairs : List (String × String))
    (rules : FilterRules) (mode : SyncMode) (st : List SyncRecord)
    (root : String) (listing listing' : List RemoteObject) :
    (plan pairs rules mode st root listing).Sorted entryLEP ∧
    (listing.Perm listing' →
      (listing.map objKey).Nodup →
      (st.map recKey).Nodup →
      plan pairs rules mode st root listing =
        plan pairs rules mode st root listing') := by
  constructor
  · exact List.sorted_insertionSort entryLEP _
  · intro hperm hndl hnds
    simp only [plan]
    set xs := (listing.filter (isEligible rules)).filter (needsFetch mode st)
      with hxs
    set xs' := (listing'.filter (isEligible rules)).filter (needsFetch mode st)
      with hxs'
    set dels := if mode = SyncMode.mirror then mirrorDeletes pairs st listing
      else [] with hdels
    set dels' := if mode = SyncMode.mirror then mirrorDeletes pairs st listing'
      else [] with hdels'
    have hxsperm : xs.Perm xs' := (hperm.filter (isEligible rules)).filter _
    have hdeleq : dels = dels' := by
      rw [hdels, hdels']
      cases mode with
      | mirror =>
        simp only [if_pos rfl]
        unfold mirrorDeletes
        exact congrArg (List.map deleteEntry)
          (List.filter_congr fun r _ => by
            rw [listedKey_perm listing listing' hperm])
      | full_refresh => rfl
      | incremental => rfl
    have hfperm : (xs.map (fetchEntry root)).Perm (xs'.map (fetchEntry root)) :=
      hxsperm.map _
    have hpre : (xs.map (fetchEntry root) ++ dels).Perm
        (xs'.map (fetchEntry root) ++ dels') :=
      hfperm.append (hdeleq ▸ List.Perm.refl dels)
    have hxssub : List.Sublist xs listing :=
      (List.filter_sublist _).trans (List.filter_sublist _)
    have hndf : ((xs.map (fetchEntry root)).map entryKey).Nodup := by
      rw [List.map_map]
      have : xs.map (entryKey ∘ fetchEntry root) = xs.map objKey :=
        List.map_congr_left fun o _ => rfl
      rw [this]
      exact (hxssub.map objKey).nodup hndl
    have hndd : (dels.map entryKey).Nodup := by
      rw [hdels]
      cases mode with
      | mirror =>
        rw [if_pos rfl]
        unfold mirrorDeletes
        rw [List.map_map]
        have : (st.filter (fun r => inScope pairs r.bucket r.key &&
            !(listedKey listing r.bucket r.key))).map (entryKey ∘ deleteEntry) =
            (st.filter (fun r => inScope pairs r.bucket r.key &&
            !(listedKey listing r.bucket r.key))).map recKey :=
          List.map_congr_left fun r _ => rfl
        rw [this]
        exact ((List.filter_sublist _).map recKey).nodup hnds
      | full_refresh => simp
      | incremental => simp
    have hdisj : List.Disjoint ((xs.map (fetchEntry root)).map entryKey)
        (dels.map entryKey) := by
      intro a haf had
      rw [hdels] at had
      cases mode with
      | mirror =>
        rw [if_pos rfl] at had
        unfold mirrorDeletes at had
        rw [List.map_map] at had
        obtain ⟨r, hr, hra⟩ := List.mem_map.mp had
        obtain ⟨e, he, hea⟩ := List.mem_map.mp haf
        obtain ⟨o, ho, hoe⟩ := List.mem_map.mp he
        have hrmem := List.mem_filter.mp hr
        have hnotlisted : listedKey listing r.bucket r.key = false := by
          have := hrmem.2
          simp only [Bool.and_eq_true, Bool.not_eq_true'] at this
          exact this.2
        have holist : o ∈ listing := hxssub.subset ho
        have hkey : objKey o = recKey r := by
          have h1 : entryKey e = objKey o := by rw [← hoe]; rfl
          have h2 : entryKey (deleteEntry r) = recKey r := rfl
          rw [← hea, h1] at hra
          rw [← hra]
          rfl
        have hlisted : listedKey listing r.bucket r.key = true := by
          apply List.any_eq_true.mpr
          refine ⟨o, holist, ?_⟩
          have hb : o.bucket = r.bucket := congrArg Prod.fst hkey
          have hk : o.key = r.key := congrArg Prod.snd hkey
          simp [hb, hk]
        rw [hlisted] at hnotlisted
        cases hnotlisted
      | full_refresh => simp at had
      | incremental => simp at had
    have hndpre : (((xs.map (fetchEntry root)) ++ dels).map entryKey).Nodup := by
      rw [List.map_append]
      exact List.Nodup.append hndf hndd hdisj
    have hs1 : ((xs.map (fetchEntry root) ++ dels).insertionSort entryLEP).Sorted
        entryLEP := List.sorted_insertionSort entryLEP _
    have hs2 : ((xs'.map (fetchEntry root) ++ dels').insertionSort entryLEP).Sorted
        entryLEP := List.sorted_insertionSort entryLEP _
    have hplanperm : ((xs.map (fetchEntry root) ++ dels).insertionSort
        entryLEP).Perm ((xs'.map (fetchEntry root) ++ dels').insertionSort
        entryLEP) :=
      (List.perm_insertionSort entryLEP _).trans
        (hpre.trans (List.perm_insertionSort entryLEP _).symm)
    have hndplan : (((xs.map (fetchEntry root) ++ dels).insertionSort
        entryLEP).map entryKey).Nodup :=
      (((List.perm_insertionSort entryLEP _).map entryKey).nodup_iff).mpr hndpre
    exact sorted_perm_nodupKey_eq hplanperm hs1 hs2 hndplan

/-- Witness for C7 at a concrete input: two listings that are permutations of
each other, with per-key-unique entries, reconcile to the identical plan. -/
theorem plan_sorted_and_deterministic_witness :
    ([{ bucket := "b", key := "a.csv", size := 1, lastModified := 1 },
      { bucket := "b", key := "b.csv", size := 2, lastModified := 2 }] :
      List RemoteObject).Perm
      [{ bucket := "b", key := "b.csv", size := 2, lastModified := 2 },
       { bucket := "b", key := "a.csv", size := 1, lastModified := 1 }] ∧
    plan [("b", "")] { includeExtensions := [".csv"], excludeFilenames := [] }
      SyncMode.incremental [] "r"
      [{ bucket := "b", key := "a.csv", size := 1, lastModified := 1 },
       { bucket := "b", key := "b.csv", size := 2, lastModified := 2 }] =
    plan [("b", "")] { includeExtensions := [".csv"], excludeFilenames := [] }
      SyncMode.incremental [] "r"
      [{ bucket := "b", key := "b.csv", size := 2, lastModified := 2 },
       { bucket := "b", key := "a.csv", size := 1, lastModified := 1 }] :=
  ⟨List.Perm.swap _ _ _,
   (plan_sorted_and_deterministic [("b", "")]
      { includeExtensions := [".csv"], excludeFilenames := [] }
      SyncMode.incremental [] "r"
      [{ bucket := "b", key := "a.csv", size := 1, lastModified := 1 },
       { bucket := "b", key := "b.csv", size := 2, lastModified := 2 }]
      [{ bucket := "b", key := "b.csv", size := 2, lastModified := 2 },
       { bucket := "b", key := "a.csv", size := 1, lastModified := 1 }]).2
     (List.Perm.swap _ _ _) (by decide) (by decide)⟩

/-- C1: the committed state consists exactly of the records of plan FETCH
entries whose outcome was SUCCEEDED together with the carried-over records
SKIPPED as already up to date, minus the records removed via DELETE; and the
record of a FETCH entry whose outcome was FAILED never appears in the
committed state. -/
theorem commit_state_contents (pairs : List (String × String))
    (rules : FilterRules) (mode : SyncMode) (st : List SyncRecord)
    (root : String) (listing : List RemoteObject)
    (outcome : DownloadPlanEntry → OutcomeStatus) (now : Nat) :
    (∀ r, r ∈ commitState pairs rules mode st root listing outcome now ↔
      ((r ∈ carriedRecords rules mode st listing ∨
        ∃ e, e ∈ plan pairs rules mode st root listing ∧
          e.action = PlanAction.FETCH ∧ outcome e = OutcomeStatus.SUCCEEDED ∧
          r = recordOfFetch now e) ∧
       (r.bucket, r.key) ∉ deleteKeys (plan pairs rules mode st root listing))) ∧
    (∀ e, e ∈ plan pairs rules mode st root listing →
      e.action = PlanAction.FETCH → outcome e = OutcomeStatus.FAILED →
      recordOfFetch now e ∉
        commitState pairs rules mode st root listing outcome now) := by
  have h1 : ∀ r, r ∈ commitState pairs rules mode st root listing outcome now ↔
      ((r ∈ carriedRecords rules mode st listing ∨
        ∃ e, e ∈ plan pairs rules mode st root listing ∧
          e.action = PlanAction.FETCH ∧ outcome e = OutcomeStatus.SUCCEEDED ∧
          r = recordOfFetch now e) ∧
       (r.bucket, r.key) ∉ deleteKeys (plan pairs rules mode st root listing)) := by
    intro r
    unfold commitState
    simp only [List.mem_filter, List.mem_append, List.mem_map,
      Bool.and_eq_true, beq_iff_eq, Bool.not_eq_true']
    constructor
    · rintro ⟨hsrc, hdel⟩
      have hdel' : (r.bucket, r.key) ∉
          deleteKeys (plan pairs rules mode st root listing) := by
        simpa using hdel
      rcases hsrc with hcar | ⟨a, ⟨ha, haa, hao⟩, har⟩
      · exact ⟨Or.inl hcar, hdel'⟩
      · exact ⟨Or.inr ⟨a, ha, haa, hao, har.symm⟩, hdel'⟩
    · rintro ⟨hsrc, hdel⟩
      have hdel' : (deleteKeys (plan pairs rules mode st root
          listing)).contains (r.bucket, r.key) = false := by
        simpa using hdel
      rcases hsrc with hcar | ⟨a, ha, haa, hao, har⟩
      · exact ⟨Or.inl hcar, hdel'⟩
      · exact ⟨Or.inr ⟨a, ⟨ha, haa, hao⟩, har.symm⟩, hdel'⟩
  refine ⟨h1, fun e hplan hact hfail hin => ?_⟩
  obtain ⟨hsrc, -⟩ := (h1 (recordOfFetch now e)).mp hin
  rcases hsrc with hcar | ⟨e', he', hact', hsucc, heq⟩
  · obtain ⟨o, _, _, hnf, hlook⟩ :=
      (mem_carried_iff rules mode st listing _).mp hcar
    rcases (mem_plan_iff pairs rules mode st root listing e).mp hplan with
      ⟨o', _, _, hnf', rfl⟩ | ⟨_, rr, _, _, _, rfl⟩
    · have hkeys := lookupRecord_keys st o.bucket o.key _ hlook
      have hb : o'.bucket = o.bucket := hkeys.1
      have hk : o'.key = o.key := hkeys.2
      cases mode with
      | full_refresh => simp [needsFetch] at hnf
      | incremental =>
        have hfalse : upToDate st o' = false := by
          have := hnf'
          simp only [needsFetch, Bool.not_eq_true'] at this
          exact this
        have htrue : upToDate st o' = true := by
          unfold upToDate
          rw [hb, hk, hlook]
          simp [recordOfFetch, fetchEntry]
        rw [htrue] at hfalse
        cases hfalse
      | mirror =>
        have hfalse : upToDate st o' = false := by
          have := hnf'
          simp only [needsFetch, Bool.not_eq_true'] at this
          exact this
        have htrue : upToDate st o' = true := by
          unfold upToDate
          rw [hb, hk, hlook]
          simp [recordOfFetch, fetchEntry]
        rw [htrue] at hfalse
        cases hfalse
    · exact absurd hact (by simp [deleteEntry])
  · have he : e = e' := recordOfFetch_inj now e e' hact hact' heq
    rw [← he] at hsucc
    rw [hfail] at hsucc
    cases hsucc

/-- Witness for C1 at a concrete input: a plan's single FETCH entry that
FAILED contributes no record to the committed state. -/
theorem commit_state_contents_witness :
    (fetchEntry "r" { bucket := "b", key := "k.csv", size := 10, lastModified := 5 } ∈
      plan [("b", "")] { includeExtensions := [".csv"], excludeFilenames := [] }
        SyncMode.incremental [] "r"
        [{ bucket := "b", key := "k.csv", size := 10, lastModified := 5 }] ∧
      (fetchEntry "r" { bucket := "b", key := "k.csv", size := 10,
                        lastModified := 5 }).action = PlanAction.FETCH) ∧
    recordOfFetch 7 (fetchEntry "r"
      { bucket := "b", key := "k.csv", size := 10, lastModified := 5 }) ∉
      commitState [("b", "")]
        { includeExtensions := [".csv"], excludeFilenames := [] }
        SyncMode.incremental [] "r"
        [{ bucket := "b", key := "k.csv", size := 10, lastModified := 5 }]
        (fun _ => OutcomeStatus.FAILED) 7 :=
  ⟨⟨by decide, rfl⟩,
   (commit_state_contents [("b", "")]
      { includeExtensions := [".csv"], excludeFilenames := [] }
      SyncMode.incremental [] "r"
      [{ bucket := "b", key := "k.csv", size := 10, lastModified := 5 }]
      (fun _ => OutcomeStatus.FAILED) 7).2
     (fetchEntry "r" { bucket := "b", key := "k.csv", size := 10, lastModified := 5 })
     (by decide) rfl rfl⟩

end S3Sync
